import Mathlib

/-!
Verification of the XGBoost-to-circuit-language converter.

The development embeds the tree-to-code compiler: the fixed-point codec
(np.round is round-half-to-even), the per-language literal renderers, the
recursive tree-logic generator, the ensemble assembler driven by a template
set, and the field/test-vector encoder.  Real values are modelled as
rationals; Python exceptions are modelled by an explicit error type; Python
list indexing (with its negative wrap-around) is modelled by pyGet.
-/

/-! ## Fixed-point codec -/

/-- np.round(q, 0): round half to even (banker's rounding). -/
def roundHalfEven (q : ℚ) : ℤ :=
  if Int.fract q < 1/2 then ⌊q⌋
  else if 1/2 < Int.fract q then ⌊q⌋ + 1
  else if ⌊q⌋ % 2 = 0 then ⌊q⌋ else ⌊q⌋ + 1

/-- int(np.round(value * multiplier, 0)). -/
def scaledInt (multiplier value : ℚ) : ℤ := roundHalfEven (value * multiplier)

/-- descaling a scaled integer back to a rational at the fixed 10^10 factor. -/
def descale (n : ℤ) : ℚ := (n : ℚ) / 10000000000


/-! ## Python-level modelling helpers -/

/-- Python exception kinds the converter can raise. -/
inductive PyError
  | keyError
  | valueError
  | indexError
  | notImplementedError
deriving DecidableEq, Repr

/-- digit-string accumulator for int(). -/
def digitsToNat : List Char → ℕ → Option ℕ
  | [], acc => some acc
  | c :: cs, acc => if c.isDigit then digitsToNat cs (acc * 10 + (c.toNat - 48)) else none

/-- digits of a non-empty string, or none. -/
def parseDigits : List Char → Option ℕ
  | [] => none
  | cs => digitsToNat cs 0

/-- Python int(s): optional sign followed by digits. -/
def parsePyInt (s : String) : Option ℤ :=
  match s.toList with
  | [] => none
  | '-' :: rest => Option.map (fun n => -(n : ℤ)) (parseDigits rest)
  | '+' :: rest => Option.map (fun n => (n : ℤ)) (parseDigits rest)
  | cs => Option.map (fun n => (n : ℤ)) (parseDigits cs)

/-- Python list indexing: negative indices wrap around from the end. -/
def pyGet {α : Type} (l : List α) (i : ℤ) : Option α :=
  if 0 ≤ i then l.get? i.toNat
  else if 0 ≤ i + (l.length : ℤ) then l.get? (i + (l.length : ℤ)).toNat
  else none

/-! ## Language configuration and literal renderers -/

/-- the fields of a language_configs/<language>_config.json that the converter reads. -/
structure Config where
  precision_multiplier : ℚ
  indentation_type : String
  indentation_size : Nat
  file_extension : String

/-- indent = indent_char * (size * depth). -/
def indentation_string (cfg : Config) (depth : Nat) : String :=
  let indent_char : Char := if cfg.indentation_type = "spaces" then ' ' else '\t'
  String.mk (List.replicate (cfg.indentation_size * depth) indent_char)

/-- sign flag of a scaled value: converted_value >= 0. -/
def fixed_point_sign (multiplier value : ℚ) : Bool := decide (0 ≤ scaledInt multiplier value)

/-- magnitude of a scaled value: abs(converted_value). -/
def fixed_point_magnitude (multiplier value : ℚ) : ℕ := (scaledInt multiplier value).natAbs

/-- convert_number_to_fixed_point: scales by the config's precision_multiplier
and renders the dialect's fixed-point literal. -/
def convert_number_to_fixed_point (cfg : Config) (language : String) (value : ℚ) :
    Except PyError String :=
  let converted_value := scaledInt cfg.precision_multiplier value
  let is_positive := decide (0 ≤ converted_value)
  let abs_value := converted_value.natAbs
  if language = "zokrates" then
    Except.ok ("i64\x7bsgn:" ++ (if is_positive then "true" else "false") ++
      ", v: " ++ toString abs_value ++ "\x7d")
  else if language = "rust" then
    Except.ok ("from_scaled_i64(" ++ toString converted_value ++ ")")
  else Except.error PyError.notImplementedError

/-- convert_number_to_fixed_point_from_scaled: renders an already scaled integer. -/
def convert_number_to_fixed_point_from_scaled (language : String) (scaled_value : ℤ) :
    Except PyError String :=
  let is_positive := decide (0 ≤ scaled_value)
  let abs_value := scaled_value.natAbs
  if language = "zokrates" then
    Except.ok ("i64\x7bsgn:" ++ (if is_positive then "true" else "false") ++
      ", v: " ++ toString abs_value ++ "\x7d")
  else if language = "rust" then
    Except.ok ("from_scaled_i64(" ++ toString scaled_value ++ ")")
  else Except.error PyError.notImplementedError

/-- convert_number_to_field: field-input rendering at the fixed 10^10 factor. -/
def convert_number_to_field (language : String) (value : ℚ) : Except PyError String :=
  let converted_value := scaledInt 10000000000 value
  let is_positive := decide (0 ≤ converted_value)
  let abs_value := converted_value.natAbs
  if language = "zokrates" then
    Except.ok ((if is_positive then "1" else "0") ++ "\", \"" ++ toString abs_value)
  else if language = "rust" then
    Except.ok (toString converted_value)
  else Except.error PyError.notImplementedError

/-- the per-value loop of convert_test_data_to_field_list. -/
def field_parts (language : String) : List ℚ → Except PyError (List String)
  | [] => Except.ok []
  | v :: vs =>
    Except.bind (convert_number_to_field language v) (fun p =>
      Except.bind (field_parts language vs) (fun ps => Except.ok (p :: ps)))

/-- convert_test_data_to_field_list: renders a feature vector in the dialect's
input-list syntax. -/
def convert_test_data_to_field_list (language : String) (test_data : List ℚ) :
    Except PyError String :=
  Except.bind (field_parts language test_data) (fun parts =>
    if language = "zokrates" then
      Except.ok ("\"" ++ String.intercalate "\", \"" parts ++ "\"")
    else if language = "rust" then
      Except.ok ("vec![" ++ String.intercalate ", " parts ++ "]")
    else Except.ok (String.intercalate ", " parts))

/-! ## Tree structure and the tree compiler -/

/-- one node of the per-tree JSON dump: a dict with a 'leaf' key, a dict with
'split', 'split_condition' and 'children' keys, or a dict with none of them. -/
inductive TreeNode
  | leaf (value : ℚ)
  | split (split_field : String) (split_condition : ℚ) (children : List TreeNode)
  | malformed

/-- the less-than-or-equal comparison of an indexed feature against a threshold
literal, as it appears in both dialects' condition templates. -/
def le_comparison (language : String) (feature_index threshold : String) : String :=
  (if language = "rust" then "fixed_le(f[" else "i64_le(f[") ++
    feature_index ++ "], " ++ threshold ++ ")"

/-- the formatted condition_template of _generate_tree_logic. -/
def condition_line (language : String) (depth : Nat) (feature_index threshold : String) :
    String :=
  if language = "rust" then
    if depth = 1 then "let tree_result = if " ++ le_comparison language feature_index threshold ++ " \x7b"
    else "if " ++ le_comparison language feature_index threshold ++ " \x7b"
  else
    if depth = 1 then "x = if " ++ le_comparison language feature_index threshold ++ " \x7b"
    else "if " ++ le_comparison language feature_index threshold ++ "\x7b"

/-- the closing lines a split emits after its 'no' branch. -/
def close_lines (cfg : Config) (language : String) (depth : Nat) : String :=
  let indent := indentation_string cfg depth
  if language = "rust" then
    if depth = 1 then indent ++ "\x7d;\n" else indent ++ "\x7d\n"
  else
    if depth = 1 then indent ++ " \x7d;\n" ++ indent ++ " y = i64_add(y, x);\n"
    else indent ++ " \x7d\n"

/-- lift an optional value to Except, raising the given error when absent. -/
def optionToExcept {α : Type} (o : Option α) (e : PyError) : Except PyError α :=
  match o with
  | some a => Except.ok a
  | none => Except.error e

/-- the split prefix of _generate_tree_logic: parse the feature index from the
'split' field, index into feature_indices, scale the threshold, and format the
condition line. -/
def split_condition_line (cfg : Config) (language : String) (feature_indices : List String)
    (split_field : String) (split_condition : ℚ) (depth : Nat) : Except PyError String :=
  Except.bind (optionToExcept (parsePyInt (split_field.drop 1)) PyError.valueError)
    (fun feature_idx =>
      Except.bind (optionToExcept (pyGet feature_indices feature_idx) PyError.indexError)
        (fun feature_index =>
          Except.bind
            (convert_number_to_fixed_point_from_scaled language
              (scaledInt 10000000000 split_condition))
            (fun threshold =>
              Except.ok (indentation_string cfg depth ++
                condition_line language depth feature_index threshold ++ "\n"))))

/-- _generate_tree_logic: recursive code generation for one decision tree. -/
def generate_tree_logic (cfg : Config) (language : String) (feature_indices : List String) :
    TreeNode → Nat → Except PyError String
  | TreeNode.leaf v, depth =>
    Except.bind (convert_number_to_fixed_point_from_scaled language (scaledInt 10000000000 v))
      (fun leaf_value =>
        if language = "rust" then
          Except.ok (indentation_string cfg depth ++ leaf_value ++ "\n")
        else
          Except.ok (indentation_string cfg depth ++ " " ++ leaf_value ++ "\n"))
  | TreeNode.split s c [], depth =>
    Except.bind (split_condition_line cfg language feature_indices s c depth)
      (fun _ => Except.error PyError.indexError)
  | TreeNode.split s c [c0], depth =>
    Except.bind (split_condition_line cfg language feature_indices s c depth)
      (fun _ =>
        Except.bind (generate_tree_logic cfg language feature_indices c0 (depth + 1))
          (fun _ => Except.error PyError.indexError))
  | TreeNode.split s c (c0 :: c1 :: _), depth =>
    Except.bind (split_condition_line cfg language feature_indices s c depth)
      (fun cond_line =>
        Except.bind (generate_tree_logic cfg language feature_indices c0 (depth + 1))
          (fun y =>
            Except.bind (generate_tree_logic cfg language feature_indices c1 (depth + 1))
              (fun n =>
                Except.ok (cond_line ++ y ++
                  indentation_string cfg depth ++ "\x7d else \x7b\n" ++ n ++
                  close_lines cfg language depth))))
  | TreeNode.malformed, _ => Except.error PyError.keyError

/-- the tree compiler reads the configuration only through its indentation
fields: replacing the precision multiplier leaves every compiled tree
unchanged.  (Proof by the same structural recursion as the compiler.) -/
def generate_ignores_multiplier (cfg : Config) (m : ℚ) (language : String) (fi : List String) :
    (tree : TreeNode) → (depth : Nat) →
    generate_tree_logic { cfg with precision_multiplier := m } language fi tree depth =
      generate_tree_logic cfg language fi tree depth
  | TreeNode.leaf _, _ => rfl
  | TreeNode.malformed, _ => rfl
  | TreeNode.split _ _ [], _ => rfl
  | TreeNode.split s c [c0], depth => by
    have h0 := generate_ignores_multiplier cfg m language fi c0 (depth + 1)
    show Except.bind (split_condition_line { cfg with precision_multiplier := m } language fi s c depth)
        (fun _ =>
          Except.bind
            (generate_tree_logic { cfg with precision_multiplier := m } language fi c0 (depth + 1))
            (fun _ => Except.error PyError.indexError)) = _
    rw [h0]
    rfl
  | TreeNode.split s c (c0 :: c1 :: rest), depth => by
    have h0 := generate_ignores_multiplier cfg m language fi c0 (depth + 1)
    have h1 := generate_ignores_multiplier cfg m language fi c1 (depth + 1)
    show Except.bind (split_condition_line { cfg with precision_multiplier := m } language fi s c depth)
        (fun cond_line =>
          Except.bind
            (generate_tree_logic { cfg with precision_multiplier := m } language fi c0 (depth + 1))
            (fun y =>
              Except.bind
                (generate_tree_logic { cfg with precision_multiplier := m } language fi c1 (depth + 1))
                (fun n =>
                  Except.ok (cond_line ++ y ++
                    indentation_string { cfg with precision_multiplier := m } depth ++
                    "\x7d else \x7b\n" ++ n ++
                    close_lines { cfg with precision_multiplier := m } language depth)))) = _
    rw [h0, h1]
    rfl

/-! ## Template set and ensemble assembler -/

/-- a chunk of the per-tree template: literal text or one of its two
placeholders. -/
inductive TreeChunk
  | lit (s : String)
  | tree_idx
  | tree_logic

/-- a chunk of the main template: literal text or one of its two placeholders. -/
inductive MainChunk
  | lit (s : String)
  | num_features
  | tree_code

/-- a chunk of the rust test template. -/
inductive TestChunk
  | lit (s : String)
  | num_features

/-- the template set loaded by _load_templates: roles missing on disk are
simply absent. -/
structure Templates where
  header : Option String
  main : Option (List MainChunk)
  tree : Option (List TreeChunk)
  cargo : Option String
  test : Option (List TestChunk)

/-- templates["tree"].format(tree_idx=idx, tree_logic=logic). -/
def format_tree_template (t : List TreeChunk) (idx : Nat) (logic : String) : String :=
  String.join (t.map (fun c =>
    match c with
    | TreeChunk.lit s => s
    | TreeChunk.tree_idx => toString idx
    | TreeChunk.tree_logic => logic))

/-- templates["main"].format(num_features=n, tree_code=code). -/
def format_main_template (t : List MainChunk) (n : Nat) (code : String) : String :=
  String.join (t.map (fun c =>
    match c with
    | MainChunk.lit s => s
    | MainChunk.num_features => toString n
    | MainChunk.tree_code => code))

/-- templates["test"].format(num_features=n). -/
def format_test_template (t : List TestChunk) (n : Nat) : String :=
  String.join (t.map (fun c =>
    match c with
    | TestChunk.lit s => s
    | TestChunk.num_features => toString n))

/-- feature_names_to_indices: the index strings "0", "1", ... of the names. -/
def feature_names_to_indices (feature_names : List String) : List String :=
  (List.range feature_names.length).map toString

/-- the per-tree loop of convert_xgboost_to_code: enumerate the dumped trees,
stop at num_trees, compile each tree at depth 1 and, when the tree template is
present, append the formatted block. -/
def compile_tree_codes (cfg : Config) (language : String) (feature_indices : List String)
    (tree_template : Option (List TreeChunk)) (num_trees : Nat) :
    Nat → List TreeNode → Except PyError (List String)
  | _, [] => Except.ok []
  | tree_idx, t :: ts =>
    if num_trees ≤ tree_idx then Except.ok []
    else
      Except.bind (generate_tree_logic cfg language feature_indices t 1) (fun tree_logic =>
        Except.bind
          (compile_tree_codes cfg language feature_indices tree_template num_trees
            (tree_idx + 1) ts)
          (fun rest =>
            match tree_template with
            | some tt => Except.ok (format_tree_template tt tree_idx tree_logic :: rest)
            | none => Except.ok rest))

/-- convert_xgboost_to_code: assemble header, per-tree blocks (through the main
template) and the optional rust test section. -/
def convert_xgboost_to_code (cfg : Config) (language : String) (templates : Templates)
    (trees_dump : List TreeNode) (feature_names : List String) (num_trees : Nat) :
    Except PyError String :=
  let feature_indices := feature_names_to_indices feature_names
  let header_parts : List String :=
    match templates.header with
    | some h => [h]
    | none => []
  Except.bind (compile_tree_codes cfg language feature_indices templates.tree num_trees 0 trees_dump)
    (fun tree_codes =>
      let main_parts : List String :=
        match templates.main with
        | some m =>
          header_parts ++
            [format_main_template m feature_names.length (String.intercalate "\n" tree_codes)]
        | none => header_parts
      let all_parts : List String :=
        if language = "rust" then
          match templates.test with
          | some t => main_parts ++ [format_test_template t feature_names.length]
          | none => main_parts
        else main_parts
      Except.ok (String.intercalate "\n" all_parts))

/-! ## Helpers used to state the assembly theorems -/

/-- compile every tree of a list at depth 1, collecting the logic texts. -/
def compileAll (cfg : Config) (language : String) (feature_indices : List String) :
    List TreeNode → Except PyError (List String)
  | [] => Except.ok []
  | t :: ts =>
    Except.bind (generate_tree_logic cfg language feature_indices t 1) (fun l =>
      Except.bind (compileAll cfg language feature_indices ts) (fun ls =>
        Except.ok (l :: ls)))

/-- wrap each compiled tree logic through the tree template, numbering the
blocks consecutively from a starting index. -/
def tree_blocks (tt : List TreeChunk) : Nat → List String → List String
  | _, [] => []
  | idx, l :: ls => format_tree_template tt idx l :: tree_blocks tt (idx + 1) ls

/-! ## Field encoder of the test notebook (cached_features.py) -/

/-- num2i64_field of test_col2i64_list_of_field. -/
def num2i64_field (x : ℤ) : String :=
  (if 0 ≤ x then "1" else "0") ++ "\", \"" ++ toString x.natAbs

/-- test_col2i64_list_of_field: the notebook's field-list encoder. -/
def test_col2i64_list_of_field (test_col : List ℚ) : String :=
  let instr :=
    test_col.foldl (fun acc i => acc ++ num2i64_field (scaledInt 10000000000 i) ++ "\", \"") "\""
  instr.dropRight 3

/-- decode one sign token and one magnitude token of the field list. -/
def decode_token_pair (sgn mag : String) : Bool × ℕ :=
  (sgn = "1", (parseDigits mag.toList).getD 0)

instance {ε α : Type} [DecidableEq ε] [DecidableEq α] : DecidableEq (Except ε α) := fun x y =>
  match x, y with
  | Except.ok a, Except.ok b =>
    if h : a = b then isTrue (by rw [h]) else isFalse (fun hc => by cases hc; exact h rfl)
  | Except.error a, Except.error b =>
    if h : a = b then isTrue (by rw [h]) else isFalse (fun hc => by cases hc; exact h rfl)
  | Except.ok _, Except.error _ => isFalse (fun hc => by cases hc)
  | Except.error _, Except.ok _ => isFalse (fun hc => by cases hc)

/-- the tree blocks produced by the per-tree loop: formatted blocks when the
tree template is present, nothing when it is absent. -/
def maybe_blocks (tO : Option (List TreeChunk)) (idx : Nat) (logics : List String) :
    List String :=
  match tO with
  | some tt => tree_blocks tt idx logics
  | none => []

/-- whether an Except value is a success. -/
def exceptIsOk {ε α : Type} : Except ε α → Bool
  | Except.ok _ => true
  | Except.error _ => false

/-! ## Sample values used by witnesses and counterexamples -/

/-- a ZoKrates-style configuration with the 10^10 scale factor. -/
def sampleConfig : Config :=
  { precision_multiplier := 10000000000
    indentation_type := "spaces"
    indentation_size := 1
    file_extension := ".zok" }

/-- a configuration identical to sampleConfig except for its scale factor. -/
def smallMultiplierConfig : Config :=
  { precision_multiplier := 100
    indentation_type := "spaces"
    indentation_size := 1
    file_extension := ".zok" }

/-- a small template set exercising every placeholder. -/
def sampleTemplates : Templates :=
  { header := some "HDR"
    main := some [MainChunk.lit "main(", MainChunk.num_features, MainChunk.lit "):\n",
      MainChunk.tree_code]
    tree := some [TreeChunk.lit "// tree ", TreeChunk.tree_idx, TreeChunk.lit "\n",
      TreeChunk.tree_logic]
    cargo := none
    test := none }
theorem roundHalfEven_intCast (n : ℤ) : roundHalfEven ((n : ℚ)) = n := by
  unfold roundHalfEven
  rw [Int.fract_intCast, Int.floor_intCast]
  norm_num

theorem scaledInt_eq_of_mul_eq (m v : ℚ) (n : ℤ) (h : v * m = (n : ℚ)) :
    scaledInt m v = n := by
  unfold scaledInt
  rw [h, roundHalfEven_intCast]

theorem roundHalfEven_nonneg (q : ℚ) (h : 0 ≤ q) : 0 ≤ roundHalfEven q := by
  have hf : 0 ≤ ⌊q⌋ := Int.floor_nonneg.mpr h
  unfold roundHalfEven
  split_ifs <;> omega

theorem roundHalfEven_nonpos (q : ℚ) (h : q ≤ 0) : roundHalfEven q ≤ 0 := by
  have hf : ⌊q⌋ ≤ 0 := Int.floor_nonpos h
  have hq : (⌊q⌋ : ℚ) + Int.fract q = q := Int.floor_add_fract q
  have h0 : (0:ℚ) ≤ Int.fract q := Int.fract_nonneg q
  unfold roundHalfEven
  split_ifs with h1 h2 h3
  · exact hf
  · rcases eq_or_lt_of_le hf with heq | hlt
    · exfalso
      rw [heq] at hq
      push_cast at hq
      linarith
    · omega
  · exact hf
  · rcases eq_or_lt_of_le hf with heq | hlt
    · exfalso
      rw [heq] at hq
      push_cast at hq
      have h12 : (1:ℚ)/2 ≤ Int.fract q := le_of_not_lt h1
      linarith
    · omega

theorem roundHalfEven_neg (q : ℚ) : roundHalfEven (-q) = -roundHalfEven q := by
  by_cases hq : Int.fract q = 0
  · have hqq : (⌊q⌋ : ℚ) = q := by
      have := Int.floor_add_fract q
      rw [hq] at this
      linarith
    have hneg : -q = (((-⌊q⌋ : ℤ)) : ℚ) := by push_cast; linarith
    rw [hneg, roundHalfEven_intCast]
    conv_rhs => rw [show q = ((⌊q⌋ : ℤ) : ℚ) from hqq.symm, roundHalfEven_intCast]
  · have hr0 : 0 ≤ Int.fract q := Int.fract_nonneg q
    have hr1 : Int.fract q < 1 := Int.fract_lt_one q
    have hfr : Int.fract (-q) = 1 - Int.fract q := Int.fract_neg hq
    have hf : ⌊-q⌋ = -⌊q⌋ - 1 := by
      have h1 := Int.floor_add_fract q
      have h2 := Int.floor_add_fract (-q)
      rw [hfr] at h2
      have hcast : (⌊-q⌋ : ℚ) = ((-⌊q⌋ - 1 : ℤ) : ℚ) := by push_cast; linarith
      exact_mod_cast hcast
    unfold roundHalfEven
    rw [hfr, hf]
    rcases lt_trichotomy (Int.fract q) (1/2) with h | h | h
    · have c1 : ¬(1 - Int.fract q < 1/2) := by linarith
      have c2 : (1:ℚ)/2 < 1 - Int.fract q := by linarith
      rw [if_neg c1, if_pos c2, if_pos h]
      ring
    · have c1 : ¬(1 - Int.fract q < 1/2) := by linarith
      have c2 : ¬((1:ℚ)/2 < 1 - Int.fract q) := by linarith
      have c3 : ¬(Int.fract q < 1/2) := by linarith
      have c4 : ¬((1:ℚ)/2 < Int.fract q) := by linarith
      rw [if_neg c1, if_neg c2, if_neg c3, if_neg c4]
      rcases Int.emod_two_eq ⌊q⌋ with hp | hp
      · have d1 : ¬((-⌊q⌋ - 1) % 2 = 0) := by omega
        rw [if_neg d1, if_pos hp]
        ring
      · have d2 : (-⌊q⌋ - 1) % 2 = 0 := by omega
        have d3 : ¬(⌊q⌋ % 2 = 0) := by omega
        rw [if_pos d2, if_neg d3]
        ring
    · have c1 : 1 - Int.fract q < 1/2 := by linarith
      have c3 : ¬(Int.fract q < 1/2) := by linarith
      rw [if_pos c1, if_neg c3, if_pos h]
      ring

theorem abs_roundHalfEven_sub_le (q : ℚ) : |(roundHalfEven q : ℚ) - q| ≤ 1/2 := by
  have h0 : (0:ℚ) ≤ Int.fract q := Int.fract_nonneg q
  have h1 : Int.fract q < 1 := Int.fract_lt_one q
  have hq : (⌊q⌋ : ℚ) + Int.fract q = q := Int.floor_add_fract q
  unfold roundHalfEven
  split_ifs with ha hb hc
  · rw [abs_le]
    constructor <;> linarith
  · rw [abs_le]
    push_cast
    constructor <;> linarith
  · rw [abs_le]
    have : Int.fract q = 1/2 := by linarith
    constructor <;> linarith
  · rw [abs_le]
    have : Int.fract q = 1/2 := by linarith
    push_cast
    constructor <;> linarith
/-! ## Concrete scaling facts -/

theorem sc_zero : scaledInt 10000000000 0 = 0 :=
  scaledInt_eq_of_mul_eq _ _ 0 (by norm_num)

theorem sc_three_halves : scaledInt 10000000000 (3/2) = 15000000000 :=
  scaledInt_eq_of_mul_eq _ _ 15000000000 (by norm_num)

theorem sc_neg_two : scaledInt 10000000000 (-2) = -20000000000 :=
  scaledInt_eq_of_mul_eq _ _ (-20000000000) (by norm_num)

theorem sc_quarter : scaledInt 10000000000 (1/4) = 2500000000 :=
  scaledInt_eq_of_mul_eq _ _ 2500000000 (by norm_num)

theorem sc_quarter_small : scaledInt 100 (1/4) = 25 :=
  scaledInt_eq_of_mul_eq _ _ 25 (by norm_num)

theorem roundHalfEven_half : roundHalfEven ((1:ℚ)/2) = 0 := by
  have hf : ⌊(1:ℚ)/2⌋ = 0 := by
    apply Int.floor_eq_iff.mpr
    constructor <;> norm_num
  have hfr : Int.fract ((1:ℚ)/2) = 1/2 := by
    unfold Int.fract
    rw [hf]
    norm_num
  unfold roundHalfEven
  rw [hfr, hf]
  norm_num

theorem sc_tie : scaledInt 10000000000 (-(1/20000000000)) = 0 := by
  unfold scaledInt
  have h : (-(1/20000000000) : ℚ) * 10000000000 = -((1:ℚ)/2) := by norm_num
  rw [h, roundHalfEven_neg, roundHalfEven_half]
  rfl

/-! ## Helper lemmas about indexing and the per-tree loop -/

theorem pyGet_eq_none_iff {α : Type} (l : List α) (i : ℤ) :
    pyGet l i = none ↔ ((l.length : ℤ) ≤ i ∨ i + (l.length : ℤ) < 0) := by
  unfold pyGet
  by_cases h0 : 0 ≤ i
  · rw [if_pos h0, List.get?_eq_none]
    constructor
    · intro h
      left
      omega
    · intro h
      omega
  · rw [if_neg h0]
    by_cases h1 : 0 ≤ i + (l.length : ℤ)
    · rw [if_pos h1, List.get?_eq_none]
      constructor
      · intro h
        omega
      · intro h
        omega
    · rw [if_neg h1]
      constructor
      · intro _
        right
        omega
      · intro _
        rfl

theorem pyGet_feature_indices_neg (names : List String) (i : ℤ)
    (hneg : i < 0) (hbound : 0 ≤ i + (names.length : ℤ)) :
    pyGet (feature_names_to_indices names) i =
      some (toString (i + (names.length : ℤ)).toNat) := by
  unfold pyGet feature_names_to_indices
  rw [List.length_map, List.length_range]
  rw [if_neg (not_le.mpr hneg), if_pos hbound]
  have hlt : (i + (names.length : ℤ)).toNat < names.length := by omega
  rw [List.get?_map, List.get?_range hlt]
  rfl

theorem compileAll_length (cfg : Config) (language : String) (fi : List String) :
    ∀ (ts : List TreeNode) (out : List String),
      compileAll cfg language fi ts = Except.ok out → out.length = ts.length := by
  intro ts
  induction ts with
  | nil =>
    intro out h
    simp [compileAll] at h
    simp [h]
  | cons t ts ih =>
    intro out h
    rw [compileAll] at h
    cases hg : generate_tree_logic cfg language fi t 1 with
    | error e =>
      rw [hg] at h
      simp [Except.bind] at h
    | ok l =>
      rw [hg] at h
      cases ha : compileAll cfg language fi ts with
      | error e =>
        rw [ha] at h
        simp [Except.bind] at h
      | ok ls =>
        rw [ha] at h
        simp [Except.bind] at h
        rw [← h]
        simp [ih ls ha]

theorem compile_tree_codes_eq (cfg : Config) (language : String) (fi : List String)
    (tO : Option (List TreeChunk)) (k : Nat) :
    ∀ (trees : List TreeNode) (idx : Nat),
      compile_tree_codes cfg language fi tO k idx trees =
        Except.bind (compileAll cfg language fi (List.take (k - idx) trees))
          (fun logics => Except.ok (maybe_blocks tO idx logics)) := by
  intro trees
  induction trees with
  | nil =>
    intro idx
    cases tO <;> simp [compile_tree_codes, compileAll, maybe_blocks, tree_blocks, Except.bind]
  | cons t ts ih =>
    intro idx
    by_cases hk : k ≤ idx
    · have h0 : k - idx = 0 := by omega
      rw [h0]
      rw [compile_tree_codes]
      rw [if_pos hk]
      cases tO <;> simp [compileAll, maybe_blocks, tree_blocks, Except.bind]
    · have h1 : k - idx = (k - (idx + 1)) + 1 := by omega
      rw [compile_tree_codes]
      rw [if_neg hk, h1, List.take_succ_cons]
      rw [ih (idx + 1)]
      cases hg : generate_tree_logic cfg language fi t 1 with
      | error e =>
        simp [compileAll, hg, Except.bind]
      | ok l =>
        cases ha : compileAll cfg language fi (List.take (k - (idx + 1)) ts) with
        | error e =>
          simp [compileAll, hg, ha, Except.bind]
        | ok ls =>
          cases tO with
          | some tt =>
            simp [compileAll, hg, ha, Except.bind, maybe_blocks, tree_blocks]
          | none =>
            simp [compileAll, hg, ha, Except.bind, maybe_blocks, tree_blocks]

/-! ## Claims -/


/-! ## Inversion helpers -/

theorem bind_eq_ok_exists {ε α β : Type} (x : Except ε α) (f : α → Except ε β) (b : β)
    (h : Except.bind x f = Except.ok b) : ∃ a, x = Except.ok a ∧ f a = Except.ok b := by
  cases x with
  | ok a => exact ⟨a, rfl, h⟩
  | error e => simp [Except.bind] at h

theorem optionToExcept_eq_ok {α : Type} (o : Option α) (e : PyError) (a : α)
    (h : optionToExcept o e = Except.ok a) : o = some a := by
  cases o with
  | some b =>
    simp [optionToExcept] at h
    rw [h]
  | none => simp [optionToExcept] at h

theorem generate_split_cons2 (cfg : Config) (language : String) (fi : List String)
    (s : String) (c : ℚ) (c0 c1 : TreeNode) (rest : List TreeNode) (depth : Nat) :
    generate_tree_logic cfg language fi (TreeNode.split s c (c0 :: c1 :: rest)) depth =
      Except.bind (split_condition_line cfg language fi s c depth)
        (fun cond_line =>
          Except.bind (generate_tree_logic cfg language fi c0 (depth + 1))
            (fun y =>
              Except.bind (generate_tree_logic cfg language fi c1 (depth + 1))
                (fun n =>
                  Except.ok (cond_line ++ y ++
                    indentation_string cfg depth ++ "\x7d else \x7b\n" ++ n ++
                    close_lines cfg language depth)))) := rfl

theorem split_condition_line_inv (cfg : Config) (language : String) (fi : List String)
    (s : String) (c : ℚ) (depth : Nat) (cl : String)
    (h : split_condition_line cfg language fi s c depth = Except.ok cl) :
    ∃ i fis thr,
      parsePyInt (s.drop 1) = some i ∧
      pyGet fi i = some fis ∧
      convert_number_to_fixed_point_from_scaled language (scaledInt 10000000000 c) =
        Except.ok thr ∧
      cl = indentation_string cfg depth ++ condition_line language depth fis thr ++ "\n" := by
  unfold split_condition_line at h
  obtain ⟨i, hi, h⟩ := bind_eq_ok_exists _ _ _ h
  obtain ⟨fis, hfis, h⟩ := bind_eq_ok_exists _ _ _ h
  obtain ⟨thr, hthr, h⟩ := bind_eq_ok_exists _ _ _ h
  refine ⟨i, fis, thr, optionToExcept_eq_ok _ _ _ hi, optionToExcept_eq_ok _ _ _ hfis,
    hthr, ?_⟩
  simp at h
  exact h.symm

theorem condition_line_contains_le (language : String) (depth : Nat) (fis thr : String) :
    ∃ pre post, condition_line language depth fis thr =
      pre ++ le_comparison language fis thr ++ post := by
  unfold condition_line
  by_cases hr : language = "rust"
  · rw [if_pos hr]
    by_cases hd : depth = 1
    · rw [if_pos hd]
      exact ⟨"let tree_result = if ", " \x7b", rfl⟩
    · rw [if_neg hd]
      exact ⟨"if ", " \x7b", rfl⟩
  · rw [if_neg hr]
    by_cases hd : depth = 1
    · rw [if_pos hd]
      exact ⟨"x = if ", " \x7b", rfl⟩
    · rw [if_neg hd]
      exact ⟨"if ", "\x7b", rfl⟩

/-! ## Claims -/

/-- C1: for every well-formed Split node the tree compiler compiles, the
emitted condition is a less-than-or-equal comparison of the indexed feature
against the threshold literal, and the code of the 'yes' child (children[0])
appears in the output strictly before the code of the 'no' child
(children[1]), at every depth. -/
theorem split_condition_is_le_and_yes_precedes_no
    (cfg : Config) (language : String) (fi : List String) (s : String) (c : ℚ)
    (c0 c1 : TreeNode) (rest : List TreeNode) (depth : Nat) (t : String)
    (h : generate_tree_logic cfg language fi (TreeNode.split s c (c0 :: c1 :: rest)) depth =
      Except.ok t) :
    ∃ i fis thr y n,
      parsePyInt (s.drop 1) = some i ∧
      pyGet fi i = some fis ∧
      convert_number_to_fixed_point_from_scaled language (scaledInt 10000000000 c) =
        Except.ok thr ∧
      generate_tree_logic cfg language fi c0 (depth + 1) = Except.ok y ∧
      generate_tree_logic cfg language fi c1 (depth + 1) = Except.ok n ∧
      t = indentation_string cfg depth ++ condition_line language depth fis thr ++ "\n" ++
          y ++ indentation_string cfg depth ++ "\x7d else \x7b\n" ++ n ++
          close_lines cfg language depth ∧
      (∃ pre post, condition_line language depth fis thr =
        pre ++ le_comparison language fis thr ++ post) := by
  rw [generate_split_cons2] at h
  obtain ⟨cl, hcl, h⟩ := bind_eq_ok_exists _ _ _ h
  obtain ⟨y, hy, h⟩ := bind_eq_ok_exists _ _ _ h
  obtain ⟨n, hn, h⟩ := bind_eq_ok_exists _ _ _ h
  obtain ⟨i, fis, thr, hi, hfis, hthr, hcleq⟩ := split_condition_line_inv _ _ _ _ _ _ _ hcl
  simp at h
  refine ⟨i, fis, thr, y, n, hi, hfis, hthr, hy, hn, ?_,
    condition_line_contains_le language depth fis thr⟩
  rw [← h, hcleq]

/-- witness for C1 at a concrete single-split tree. -/
theorem split_condition_is_le_and_yes_precedes_no_witness :
    ∃ i fis thr y n,
      parsePyInt ("f0".drop 1) = some i ∧
      pyGet ["0"] i = some fis ∧
      convert_number_to_fixed_point_from_scaled "zokrates" (scaledInt 10000000000 (3/2)) =
        Except.ok thr ∧
      generate_tree_logic sampleConfig "zokrates" ["0"] (TreeNode.leaf 0) (1 + 1) =
        Except.ok y ∧
      generate_tree_logic sampleConfig "zokrates" ["0"] (TreeNode.leaf 0) (1 + 1) =
        Except.ok n ∧
      (" x = if i64_le(f[0], i64\x7bsgn:true, v: 15000000000\x7d) \x7b\n   i64\x7bsgn:true, v: 0\x7d\n \x7d else \x7b\n   i64\x7bsgn:true, v: 0\x7d\n  \x7d;\n  y = i64_add(y, x);\n" : String) =
        indentation_string sampleConfig 1 ++ condition_line "zokrates" 1 fis thr ++ "\n" ++
          y ++ indentation_string sampleConfig 1 ++ "\x7d else \x7b\n" ++ n ++
          close_lines sampleConfig "zokrates" 1 ∧
      (∃ pre post, condition_line "zokrates" 1 fis thr =
        pre ++ le_comparison "zokrates" fis thr ++ post) := by
  apply split_condition_is_le_and_yes_precedes_no sampleConfig "zokrates" ["0"] "f0" (3/2)
    (TreeNode.leaf 0) (TreeNode.leaf 0) [] 1
  simp only [generate_tree_logic, split_condition_line, optionToExcept, sc_zero,
    sc_three_halves, Except.bind]
  decide

/-- C2: with all three roles present and maxTrees = k, the assembled output
holds exactly the blocks of the first k trees, in order, each formatted with
its original ordinal index 0..k-1. -/
theorem ensemble_keeps_first_k_trees_with_ordinal_indices
    (cfg : Config) (language : String) (hdr : String) (mt : List MainChunk)
    (tt : List TreeChunk) (trees : List TreeNode) (names : List String) (k : Nat)
    (logics : List String)
    (hk : k ≤ trees.length)
    (h : compileAll cfg language (feature_names_to_indices names) (List.take k trees) =
      Except.ok logics) :
    logics.length = k ∧
    convert_xgboost_to_code cfg language
        { header := some hdr, main := some mt, tree := some tt, cargo := none, test := none }
        trees names k =
      Except.ok (String.intercalate "\n" [hdr,
        format_main_template mt names.length
          (String.intercalate "\n" (tree_blocks tt 0 logics))]) := by
  have hlen : logics.length = k := by
    have := compileAll_length cfg language (feature_names_to_indices names)
      (List.take k trees) logics h
    rw [List.length_take] at this
    omega
  refine ⟨hlen, ?_⟩
  simp only [convert_xgboost_to_code]
  rw [compile_tree_codes_eq, Nat.sub_zero, h]
  by_cases hr : language = "rust" <;> simp [hr, Except.bind, maybe_blocks]

/-- witness for C2: two dumped trees, maxTrees = 1. -/
theorem ensemble_keeps_first_k_trees_witness :
    (["  i64\x7bsgn:true, v: 0\x7d\n"] : List String).length = 1 ∧
    convert_xgboost_to_code sampleConfig "zokrates"
        { header := some "HDR"
          main := some [MainChunk.lit "main(", MainChunk.num_features, MainChunk.lit "):\n",
            MainChunk.tree_code]
          tree := some [TreeChunk.lit "// tree ", TreeChunk.tree_idx, TreeChunk.lit "\n",
            TreeChunk.tree_logic]
          cargo := none
          test := none }
        [TreeNode.leaf 0, TreeNode.leaf (3/2)] ["a", "b"] 1 =
      Except.ok (String.intercalate "\n" ["HDR",
        format_main_template
          [MainChunk.lit "main(", MainChunk.num_features, MainChunk.lit "):\n",
            MainChunk.tree_code] (["a", "b"] : List String).length
          (String.intercalate "\n"
            (tree_blocks
              [TreeChunk.lit "// tree ", TreeChunk.tree_idx, TreeChunk.lit "\n",
                TreeChunk.tree_logic] 0 ["  i64\x7bsgn:true, v: 0\x7d\n"]))]) := by
  apply ensemble_keeps_first_k_trees_with_ordinal_indices sampleConfig "zokrates" "HDR"
    _ _ [TreeNode.leaf 0, TreeNode.leaf (3/2)] ["a", "b"] 1
    ["  i64\x7bsgn:true, v: 0\x7d\n"]
  · decide
  · simp only [feature_names_to_indices, compileAll, generate_tree_logic, sc_zero,
      Except.bind, List.take]
    decide

/-- C6: a template set may lack any of the header, main or tree roles;
assembly still succeeds, the corresponding section is silently omitted, and
the output is exactly the join of the sections whose roles are present. -/
theorem missing_template_roles_are_silently_omitted
    (cfg : Config) (language : String) (templates : Templates)
    (trees : List TreeNode) (names : List String) (k : Nat) (logics : List String)
    (h : compileAll cfg language (feature_names_to_indices names) (List.take k trees) =
      Except.ok logics) :
    convert_xgboost_to_code cfg language templates trees names k =
      Except.ok (String.intercalate "\n"
        ((match templates.header with
          | some hd => [hd]
          | none => []) ++
         (match templates.main with
          | some m => [format_main_template m names.length
              (String.intercalate "\n" (maybe_blocks templates.tree 0 logics))]
          | none => []) ++
         (if language = "rust" then
            match templates.test with
            | some ts => [format_test_template ts names.length]
            | none => []
          else []))) := by
  simp only [convert_xgboost_to_code]
  rw [compile_tree_codes_eq, Nat.sub_zero, h]
  rcases templates with ⟨hO, mO, tO, cO, tsO⟩
  by_cases hr : language = "rust" <;>
    cases hO <;> cases mO <;> cases tsO <;>
      simp [hr, Except.bind, maybe_blocks]

/-- witness for C6: header and tree roles absent, main present. -/
theorem missing_template_roles_witness :
    convert_xgboost_to_code sampleConfig "zokrates"
        { header := none
          main := some [MainChunk.lit "main(", MainChunk.num_features, MainChunk.lit "):\n",
            MainChunk.tree_code]
          tree := none
          cargo := none
          test := none }
        [TreeNode.leaf 0] ["a"] 1 =
      Except.ok (String.intercalate "\n"
        (([] : List String) ++
         [format_main_template
            [MainChunk.lit "main(", MainChunk.num_features, MainChunk.lit "):\n",
              MainChunk.tree_code] (["a"] : List String).length
            (String.intercalate "\n" (maybe_blocks none 0 ["  i64\x7bsgn:true, v: 0\x7d\n"]))] ++
         ([] : List String))) := by
  apply missing_template_roles_are_silently_omitted sampleConfig "zokrates" _
    [TreeNode.leaf 0] ["a"] 1 ["  i64\x7bsgn:true, v: 0\x7d\n"]
  simp only [feature_names_to_indices, compileAll, generate_tree_logic, sc_zero,
    Except.bind, List.take]
  decide

/-- counterexample to C3 as stated: a Split whose feature index is the
negative integer -1 is outside [0, featureCount) for featureCount = 1, yet
the tree compiles successfully instead of failing. -/
theorem negative_feature_index_split_compiles :
    exceptIsOk (generate_tree_logic sampleConfig "zokrates" (feature_names_to_indices ["a"])
      (TreeNode.split "f-1" 0 [TreeNode.leaf 0, TreeNode.leaf 0]) 1) = true := by
  simp only [generate_tree_logic, split_condition_line, optionToExcept, sc_zero, Except.bind]
  decide

/-- C3 amended: a Split whose parsed feature index i satisfies
featureCount ≤ i or i < -featureCount fails (index error, the analogue of
MalformedTreeError) with no partial output for that tree, and a node that is
neither a well-formed Leaf nor a well-formed Split fails (key error); an
index in [-featureCount, -1] instead wraps around (claim C10). -/
theorem out_of_range_index_or_malformed_node_fails
    (cfg : Config) (language : String) (fi : List String) (s : String) (c : ℚ)
    (children : List TreeNode) (depth : Nat) (i : ℤ)
    (hp : parsePyInt (s.drop 1) = some i)
    (hout : (fi.length : ℤ) ≤ i ∨ i + (fi.length : ℤ) < 0) :
    generate_tree_logic cfg language fi (TreeNode.split s c children) depth =
      Except.error PyError.indexError ∧
    (∀ depth2, generate_tree_logic cfg language fi TreeNode.malformed depth2 =
      Except.error PyError.keyError) := by
  have hnone : pyGet fi i = none := (pyGet_eq_none_iff fi i).mpr hout
  have hscl : split_condition_line cfg language fi s c depth =
      Except.error PyError.indexError := by
    unfold split_condition_line
    rw [hp]
    simp [optionToExcept, Except.bind, hnone]
  refine ⟨?_, fun depth2 => rfl⟩
  rcases children with _ | ⟨c0, children⟩
  · simp [generate_tree_logic, hscl, Except.bind]
  · rcases children with _ | ⟨c1, rest⟩
    · simp [generate_tree_logic, hscl, Except.bind]
    · simp [generate_split_cons2, hscl, Except.bind]

/-- witness for the amended C3 at featureIndex = featureCount = 1. -/
theorem out_of_range_index_fails_witness :
    generate_tree_logic sampleConfig "zokrates" (feature_names_to_indices ["a"])
      (TreeNode.split "f1" 0 [TreeNode.leaf 0, TreeNode.leaf 0]) 1 =
      Except.error PyError.indexError ∧
    (∀ depth2, generate_tree_logic sampleConfig "zokrates" (feature_names_to_indices ["a"])
      TreeNode.malformed depth2 = Except.error PyError.keyError) :=
  out_of_range_index_or_malformed_node_fails sampleConfig "zokrates"
    (feature_names_to_indices ["a"]) "f1" 0 [TreeNode.leaf 0, TreeNode.leaf 0] 1 1
    (by decide) (by decide)

/-- counterexample to C4 as stated: at v = -1/(2·10^10) the scaled value is
round(-0.5) = 0, so the emitted sign flag is non-negative although v < 0;
the biconditional "sign non-negative iff v ≥ 0" fails. -/
theorem sign_bit_disagrees_with_value_sign :
    fixed_point_sign 10000000000 (-(1/20000000000)) = true ∧
    ¬(0 ≤ (-(1/20000000000) : ℚ)) ∧
    convert_number_to_fixed_point sampleConfig "zokrates" (-(1/20000000000)) =
      Except.ok "i64\x7bsgn:true, v: 0\x7d" := by
  refine ⟨?_, by norm_num, ?_⟩
  · unfold fixed_point_sign
    rw [sc_tie]
    decide
  · simp only [convert_number_to_fixed_point, sampleConfig, sc_tie]
    decide

/-- C4 amended: the sign flag is non-negative exactly when the scaled value
round(v·10^10) is non-negative (implied by v ≥ 0, but not conversely), and
the magnitude equals round(|v|·10^10). -/
theorem sign_follows_scaled_value_and_magnitude_is_rounded_abs (v : ℚ) :
    (0 ≤ v → fixed_point_sign 10000000000 v = true) ∧
    (fixed_point_sign 10000000000 v = true ↔ 0 ≤ scaledInt 10000000000 v) ∧
    ((fixed_point_magnitude 10000000000 v : ℤ) = scaledInt 10000000000 |v|) := by
  refine ⟨?_, ?_, ?_⟩
  · intro hv
    unfold fixed_point_sign
    simp only [decide_eq_true_eq]
    exact roundHalfEven_nonneg _ (mul_nonneg hv (by norm_num))
  · unfold fixed_point_sign
    simp [decide_eq_true_eq]
  · unfold fixed_point_magnitude
    rcases le_or_lt 0 v with hv | hv
    · rw [abs_of_nonneg hv]
      have hge : 0 ≤ scaledInt 10000000000 v :=
        roundHalfEven_nonneg _ (mul_nonneg hv (by norm_num))
      omega
    · rw [abs_of_neg hv]
      have h1 : scaledInt 10000000000 (-v) = -scaledInt 10000000000 v := by
        unfold scaledInt
        rw [neg_mul, roundHalfEven_neg]
      have hvc : v * 10000000000 ≤ 0 := by nlinarith
      have h2 : scaledInt 10000000000 v ≤ 0 := roundHalfEven_nonpos _ hvc
      rw [h1]
      omega

/-- witness for the amended C4 at v = 3/2. -/
theorem sign_and_magnitude_witness :
    fixed_point_sign 10000000000 (3/2) = true ∧
    ((fixed_point_magnitude 10000000000 (3/2) : ℤ) = scaledInt 10000000000 |(3/2 : ℚ)|) :=
  ⟨(sign_follows_scaled_value_and_magnitude_is_rounded_abs (3/2)).1 (by norm_num),
    (sign_follows_scaled_value_and_magnitude_is_rounded_abs (3/2)).2.2⟩

/-- counterexample to C5 as stated: under a profile whose configured scale
factor is 100, the compiled leaf literal for 0.25 still carries the
10^10-scaled magnitude 2500000000, not round(0.25·100) = 25; the emitted
literals do not change with the profile's scale factor. -/
theorem tree_literals_ignore_profile_scale_factor :
    generate_tree_logic smallMultiplierConfig "zokrates" [] (TreeNode.leaf (1/4)) 1 =
      Except.ok "  i64\x7bsgn:true, v: 2500000000\x7d\n" ∧
    convert_number_to_fixed_point smallMultiplierConfig "zokrates" (1/4) =
      Except.ok "i64\x7bsgn:true, v: 25\x7d" := by
  constructor
  · simp only [generate_tree_logic, sc_quarter, Except.bind]
    decide
  · simp only [convert_number_to_fixed_point, smallMultiplierConfig, sc_quarter_small]
    decide

/-- C5 amended: the tree compiler scales every leaf value and split threshold
with the fixed factor 10^10, ignoring the profile's configured
precision_multiplier: replacing the multiplier leaves the compiled tree
unchanged, and the leaf and threshold literals are rendered from
scaledInt 10^10. -/
theorem tree_scaling_is_fixed_at_ten_to_ten
    (cfg : Config) (m : ℚ) (language : String) (fi : List String) (tree : TreeNode)
    (depth : Nat) (v c : ℚ) (s : String) :
    generate_tree_logic { cfg with precision_multiplier := m } language fi tree depth =
      generate_tree_logic cfg language fi tree depth ∧
    generate_tree_logic cfg language fi (TreeNode.leaf v) depth =
      Except.bind (convert_number_to_fixed_point_from_scaled language (scaledInt 10000000000 v))
        (fun lit =>
          if language = "rust" then Except.ok (indentation_string cfg depth ++ lit ++ "\n")
          else Except.ok (indentation_string cfg depth ++ " " ++ lit ++ "\n")) ∧
    split_condition_line cfg language fi s c depth =
      Except.bind (optionToExcept (parsePyInt (s.drop 1)) PyError.valueError)
        (fun feature_idx =>
          Except.bind (optionToExcept (pyGet fi feature_idx) PyError.indexError)
            (fun feature_index =>
              Except.bind
                (convert_number_to_fixed_point_from_scaled language (scaledInt 10000000000 c))
                (fun threshold =>
                  Except.ok (indentation_string cfg depth ++
                    condition_line language depth feature_index threshold ++ "\n")))) :=
  ⟨generate_ignores_multiplier cfg m language fi tree depth, rfl, rfl⟩

/-- C7: encoding the vector [1.5, -2.0] for the sign/magnitude ZoKrates
dialect yields a single quoted, delimiter-joined text whose four tokens, in
order, decode to (positive, 15000000000) then (negative, 20000000000); the
notebook's field encoder produces the identical text. -/
theorem field_encoding_of_sample_vector :
    convert_test_data_to_field_list "zokrates" [3/2, -2] =
      Except.ok ("\"" ++ "1" ++ "\", \"" ++ "15000000000" ++ "\", \"" ++ "0" ++ "\", \"" ++
        "20000000000" ++ "\"") ∧
    decode_token_pair "1" "15000000000" = (true, 15000000000) ∧
    decode_token_pair "0" "20000000000" = (false, 20000000000) ∧
    test_col2i64_list_of_field [3/2, -2] =
      "\"" ++ "1" ++ "\", \"" ++ "15000000000" ++ "\", \"" ++ "0" ++ "\", \"" ++
        "20000000000" ++ "\"" := by
  refine ⟨?_, by decide, by decide, ?_⟩
  · simp only [convert_test_data_to_field_list, field_parts, convert_number_to_field,
      sc_three_halves, sc_neg_two, Except.bind]
    decide
  · simp only [test_col2i64_list_of_field, List.foldl_cons, List.foldl_nil,
      sc_three_halves, sc_neg_two]
    decide

/-- C8: for every real v with |v| < 10^8, descaling the scaled value recovers
v up to the quantization bound 0.5 / scaleFactor. -/
theorem descale_scale_round_trip_bound (v : ℚ) (h : |v| < 100000000) :
    |descale (scaledInt 10000000000 v) - v| ≤ (1/2) / 10000000000 := by
  have key := abs_roundHalfEven_sub_le (v * 10000000000)
  unfold descale scaledInt
  have h10 : (0:ℚ) < 10000000000 := by norm_num
  have heq : (roundHalfEven (v * 10000000000) : ℚ) / 10000000000 - v =
      ((roundHalfEven (v * 10000000000) : ℚ) - v * 10000000000) / 10000000000 := by
    field_simp
    ring
  rw [heq, abs_div, abs_of_pos h10]
  gcongr

/-- witness for C8 at v = 3/2. -/
theorem descale_scale_round_trip_witness :
    |(3/2 : ℚ)| < 100000000 ∧
    |descale (scaledInt 10000000000 (3/2)) - 3/2| ≤ (1/2) / 10000000000 :=
  have habs : |(3/2 : ℚ)| < 100000000 := by
    rw [abs_of_nonneg (by norm_num : (0:ℚ) ≤ 3/2)]
    norm_num
  ⟨habs, descale_scale_round_trip_bound (3/2) habs⟩

/-- C9: two feature-name lists of the same length produce identical generated
source text: the output depends on the feature list only through its length,
so no feature name can flow into the generated code. -/
theorem output_depends_only_on_feature_count
    (cfg : Config) (language : String) (templates : Templates) (trees : List TreeNode)
    (names1 names2 : List String) (k : Nat) (h : names1.length = names2.length) :
    convert_xgboost_to_code cfg language templates trees names1 k =
      convert_xgboost_to_code cfg language templates trees names2 k := by
  unfold convert_xgboost_to_code feature_names_to_indices
  rw [h]

/-- witness for C9 with two different one-element name lists. -/
theorem output_depends_only_on_feature_count_witness :
    convert_xgboost_to_code sampleConfig "zokrates" sampleTemplates [TreeNode.leaf 0]
        ["alpha"] 1 =
      convert_xgboost_to_code sampleConfig "zokrates" sampleTemplates [TreeNode.leaf 0]
        ["beta"] 1 :=
  output_depends_only_on_feature_count sampleConfig "zokrates" sampleTemplates
    [TreeNode.leaf 0] ["alpha"] ["beta"] 1 rfl

/-- C10: a Split whose 'split' field parses to a negative integer i with
-F ≤ i ≤ -1 against a feature list of length F does not fail: compilation
succeeds and the emitted comparison indexes feature F + i (Python wrap-around
list indexing). -/
theorem negative_parsed_index_wraps_around
    (cfg : Config) (language : String) (names : List String) (s : String) (c : ℚ)
    (c0 c1 : TreeNode) (rest : List TreeNode) (depth : Nat) (i : ℤ) (thr y n : String)
    (hp : parsePyInt (s.drop 1) = some i)
    (hneg : i < 0) (hbound : 0 ≤ i + (names.length : ℤ))
    (hthr : convert_number_to_fixed_point_from_scaled language (scaledInt 10000000000 c) =
      Except.ok thr)
    (hy : generate_tree_logic cfg language (feature_names_to_indices names) c0 (depth + 1) =
      Except.ok y)
    (hn : generate_tree_logic cfg language (feature_names_to_indices names) c1 (depth + 1) =
      Except.ok n) :
    generate_tree_logic cfg language (feature_names_to_indices names)
        (TreeNode.split s c (c0 :: c1 :: rest)) depth =
      Except.ok (indentation_string cfg depth ++
        condition_line language depth (toString (i + (names.length : ℤ)).toNat) thr ++ "\n" ++
        y ++ indentation_string cfg depth ++ "\x7d else \x7b\n" ++ n ++
        close_lines cfg language depth) := by
  have hpg := pyGet_feature_indices_neg names i hneg hbound
  rw [generate_split_cons2]
  have hscl : split_condition_line cfg language (feature_names_to_indices names) s c depth =
      Except.ok (indentation_string cfg depth ++
        condition_line language depth (toString (i + (names.length : ℤ)).toNat) thr ++ "\n") := by
    unfold split_condition_line
    rw [hp]
    simp only [optionToExcept, Except.bind, hpg, hthr]
  rw [hscl, hy, hn]
  simp [Except.bind]

/-- witness for C10: split field "f-1" against three features emits f[2]. -/
theorem negative_parsed_index_wraps_witness :
    generate_tree_logic sampleConfig "zokrates" (feature_names_to_indices ["a", "b", "c"])
        (TreeNode.split "f-1" 0 [TreeNode.leaf 0, TreeNode.leaf 0]) 2 =
      Except.ok (indentation_string sampleConfig 2 ++
        condition_line "zokrates" 2
          (toString ((-1 : ℤ) + ((["a", "b", "c"] : List String).length : ℤ)).toNat)
          "i64\x7bsgn:true, v: 0\x7d" ++ "\n" ++
        "    i64\x7bsgn:true, v: 0\x7d\n" ++ indentation_string sampleConfig 2 ++
        "\x7d else \x7b\n" ++ "    i64\x7bsgn:true, v: 0\x7d\n" ++
        close_lines sampleConfig "zokrates" 2) := by
  apply negative_parsed_index_wraps_around sampleConfig "zokrates" ["a", "b", "c"] "f-1" 0
    (TreeNode.leaf 0) (TreeNode.leaf 0) [] 2 (-1) "i64\x7bsgn:true, v: 0\x7d"
  · decide
  · decide
  · decide
  · simp only [sc_zero]
    decide
  · simp only [generate_tree_logic, sc_zero, Except.bind]
    decide
  · simp only [generate_tree_logic, sc_zero, Except.bind]
    decide
